import Mathlib

/-!
Shallow embedding of the fund NAV-prediction backend core:
`app/core/technical_analysis.py`, `app/core/nav_estimator.py`,
`app/core/cache_manager.py` (with provider shapes from
`app/core/data_fetcher.py`), together with theorems settling the
spec claims about them.

Numeric model: pandas/numpy float arithmetic is modelled over exact
rationals extended with `+inf`, `-inf` and `NaN` (`PVal`), with IEEE-754
special-value rules for the operations the code performs (in particular
`0/0 = NaN`, `x/0 = ±inf` for `x ≠ 0`, and `fillna` replacing only `NaN`).
Rounding (`Series.round`) is modelled as exact round-half-to-even.
The square root inside the Bollinger standard deviation is kept as an
explicit function parameter `sqrt : ℚ → ℚ`; every statement proved about
Bollinger columns holds for an arbitrary such function, so nothing
depends on how the irrational square root is approximated.
-/

namespace FundCore

/-- A pandas/numpy float value: an exact rational, `+inf`, `-inf`, or `NaN`. -/
inductive PVal where
  | num (q : ℚ)
  | pinf
  | ninf
  | nan
deriving DecidableEq, Repr

namespace PVal

/-- IEEE-style addition on extended values. -/
def add : PVal → PVal → PVal
  | num a, num b => num (a + b)
  | nan, _ => nan
  | _, nan => nan
  | pinf, ninf => nan
  | ninf, pinf => nan
  | pinf, _ => pinf
  | _, pinf => pinf
  | ninf, _ => ninf
  | _, ninf => ninf

/-- IEEE-style negation. -/
def neg : PVal → PVal
  | num a => num (-a)
  | pinf => ninf
  | ninf => pinf
  | nan => nan

/-- IEEE-style subtraction. -/
def sub (a b : PVal) : PVal := add a (neg b)

/-- IEEE-style multiplication (`±inf × 0 = NaN`). -/
def mul : PVal → PVal → PVal
  | num a, num b => num (a * b)
  | nan, _ => nan
  | _, nan => nan
  | pinf, pinf => pinf
  | pinf, ninf => ninf
  | ninf, pinf => ninf
  | ninf, ninf => pinf
  | pinf, num b => if 0 < b then pinf else if b < 0 then ninf else nan
  | num a, pinf => if 0 < a then pinf else if a < 0 then ninf else nan
  | ninf, num b => if 0 < b then ninf else if b < 0 then pinf else nan
  | num a, ninf => if 0 < a then ninf else if a < 0 then pinf else nan

/-- IEEE-style division: `0/0 = NaN`, `x/0 = ±inf`, `x/±inf = 0`, `inf/inf = NaN`.
(Signed zeros are not modelled; the embedded code never divides by a negative
zero.) -/
def div : PVal → PVal → PVal
  | num a, num b =>
      if b = 0 then (if a = 0 then nan else if 0 < a then pinf else ninf)
      else num (a / b)
  | nan, _ => nan
  | _, nan => nan
  | pinf, pinf => nan
  | pinf, ninf => nan
  | ninf, pinf => nan
  | ninf, ninf => nan
  | pinf, num b => if 0 ≤ b then pinf else ninf
  | ninf, num b => if 0 ≤ b then ninf else pinf
  | num _, pinf => num 0
  | num _, ninf => num 0

end PVal

/-- Round-half-to-even to an integer (numpy/pandas rounding rule), exact on ℚ. -/
def rndHalfEven (x : ℚ) : ℤ :=
  let f : ℤ := ⌊x⌋
  let r : ℚ := x - f
  if r < 1/2 then f
  else if 1/2 < r then f + 1
  else if f % 2 = 0 then f else f + 1

/-- `Series.round(k)` on a rational: round half-to-even at `k` decimals. -/
def qround (k : ℕ) (x : ℚ) : ℚ :=
  (rndHalfEven (x * (10 ^ k : ℕ))) / ((10 ^ k : ℕ) : ℚ)

/-- `Series.round(k)` on an extended value: `NaN`/`±inf` are unchanged. -/
def pround (k : ℕ) : PVal → PVal
  | PVal.num q => PVal.num (qround k q)
  | v => v

/-- The trailing window pandas `rolling(window=w, min_periods=1)` sees at
index `i`: the last `min (i+1) w` elements of `xs.take (i+1)`. -/
def rollWindow (w : ℕ) (xs : List ℚ) (i : ℕ) : List ℚ :=
  (xs.take (i + 1)).drop (i + 1 - w)

/-- Apply a reducer over every trailing window (`rolling(...).agg`). -/
def rollingApply (f : List ℚ → ℚ) (w : ℕ) (xs : List ℚ) : List ℚ :=
  (List.range xs.length).map (fun i => f (rollWindow w xs i))

/-- Arithmetic mean of a list of rationals (windows are always nonempty). -/
def listMean (l : List ℚ) : ℚ := l.sum / l.length

/-- Minimum of a nonempty list (0 on the never-occurring empty window). -/
def listMin : List ℚ → ℚ
  | [] => 0
  | x :: xs => xs.foldl min x

/-- Maximum of a nonempty list (0 on the never-occurring empty window). -/
def listMax : List ℚ → ℚ
  | [] => 0
  | x :: xs => xs.foldl max x

/-- Sample variance (ddof = 1): `NaN` on windows of fewer than two points,
matching pandas `rolling(...).std()` with `min_periods=1`. Returns the
variance wrapped in `PVal`; the caller takes the square root. -/
def sampleVar (l : List ℚ) : PVal :=
  if l.length < 2 then PVal.nan
  else PVal.num ((l.map (fun x => (x - listMean l) ^ 2)).sum / (l.length - 1 : ℕ))

/-- `rolling(window=w, min_periods=1).mean()`. -/
def rollingMean (w : ℕ) (xs : List ℚ) : List ℚ := rollingApply listMean w xs

/-- `rolling(window=w, min_periods=1).min()`. -/
def rollingMin (w : ℕ) (xs : List ℚ) : List ℚ := rollingApply listMin w xs

/-- `rolling(window=w, min_periods=1).max()`. -/
def rollingMax (w : ℕ) (xs : List ℚ) : List ℚ := rollingApply listMax w xs

/-- `rolling(window=w, min_periods=1).std()` (ddof = 1): `NaN` until two
points are available, else `sqrt` of the sample variance, where `sqrt` is
the abstract rational square-root parameter. -/
def rollingStd (sqrt : ℚ → ℚ) (w : ℕ) (xs : List ℚ) : List PVal :=
  (List.range xs.length).map (fun i =>
    match sampleVar (rollWindow w xs i) with
    | PVal.num v => PVal.num (sqrt v)
    | v => v)

/-- `Series.ewm(alpha, adjust=False).mean()` recursion: `y₀ = x₀`,
`yᵢ = (1−α)·yᵢ₋₁ + α·xᵢ`; a `NaN` input is skipped (the previous value is
emitted and the state kept), matching pandas. -/
def ewmGo (a : ℚ) : Option PVal → List PVal → List PVal
  | _, [] => []
  | st, x :: rest =>
    match x, st with
    | PVal.nan, none => PVal.nan :: ewmGo a none rest
    | PVal.nan, some y => y :: ewmGo a (some y) rest
    | v, none => v :: ewmGo a (some v) rest
    | v, some y =>
        let z := PVal.add (PVal.mul (PVal.num (1 - a)) y) (PVal.mul (PVal.num a) v)
        z :: ewmGo a (some z) rest

/-- `Series.ewm(alpha=a, adjust=False).mean()`. `com=c` gives `a = 1/(1+c)`;
`span=s` gives `a = 2/(s+1)`. -/
def ewm (a : ℚ) (xs : List PVal) : List PVal := ewmGo a none xs

/-- A pandas DataFrame of OHLCV bars: the fixed input columns plus the
named indicator columns the pipeline attaches. -/
structure DF where
  dates : List ℕ
  opens : List ℚ
  high : List ℚ
  low : List ℚ
  close : List ℚ
  volume : List ℚ
  cols : List (String × List PVal)
deriving DecidableEq, Repr

/-- `df[name] = vals`: overwrite the column if present, else append it. -/
def DF.setCol (df : DF) (name : String) (vals : List PVal) : DF :=
  { df with cols := df.cols.filter (fun p => !(p.1 == name)) ++ [(name, vals)] }

/-- Read an indicator column (empty if never assigned). -/
def DF.getCol (df : DF) (name : String) : List PVal :=
  (df.cols.lookup name).getD []

/-- The input-bar columns of a frame — everything except the indicator
columns — bundled for frame-preservation statements. -/
def DF.bars (df : DF) : List ℕ × List ℚ × List ℚ × List ℚ × List ℚ × List ℚ :=
  (df.dates, df.opens, df.high, df.low, df.close, df.volume)

namespace TechnicalAnalyzer

/-- `calculate_ma`: `df['MA{p}'] = close.rolling(p, min_periods=1).mean().round(4)`
for each period. -/
def calculate_ma (df : DF) (periods : List ℕ := [5, 10, 20, 60]) : DF :=
  periods.foldl
    (fun d p =>
      d.setCol ("MA" ++ toString p)
        ((rollingMean p df.close).map (fun q => PVal.num (qround 4 q))))
    df

/-- `calculate_macd`: DIF = EWMA(close,fast) − EWMA(close,slow), rounded;
DEA = EWMA(DIF, signal) of the rounded DIF; HIST = 2(DIF − DEA). -/
def calculate_macd (df : DF) (fast : ℕ := 12) (slow : ℕ := 26) (signal : ℕ := 9) : DF :=
  let closeP := df.close.map PVal.num
  let exp1 := ewm (2 / (fast + 1 : ℕ)) closeP
  let exp2 := ewm (2 / (slow + 1 : ℕ)) closeP
  let dif := (List.zipWith PVal.sub exp1 exp2).map (pround 4)
  let dea := (ewm (2 / (signal + 1 : ℕ)) dif).map (pround 4)
  let hist := (List.zipWith (fun a b => PVal.mul (PVal.num 2) (PVal.sub a b)) dif dea).map
    (pround 4)
  ((df.setCol "MACD_DIF" dif).setCol "MACD_DEA" dea).setCol "MACD_HIST" hist

/-- The raw stochastic value series before `fillna`:
`(close − rolling_min(low,n)) / (rolling_max(high,n) − rolling_min(low,n)) × 100`,
with numpy division semantics at a zero denominator. -/
def kdjRsvRaw (df : DF) (n : ℕ) : List PVal :=
  let lowList := rollingMin n df.low
  let highList := rollingMax n df.high
  (List.range df.close.length).map (fun i =>
    PVal.mul
      (PVal.div
        (PVal.sub (PVal.num (df.close.getD i 0)) (PVal.num (lowList.getD i 0)))
        (PVal.sub (PVal.num (highList.getD i 0)) (PVal.num (lowList.getD i 0))))
      (PVal.num 100))

/-- `rsv.fillna(50)`: only `NaN` is replaced. -/
def kdjRsvFilled (df : DF) (n : ℕ) : List PVal :=
  (kdjRsvRaw df n).map (fun v => match v with | PVal.nan => PVal.num 50 | v => v)

/-- `calculate_kdj`: K = EWMA(rsv, com = m1−1) rounded to 2;
D = EWMA(K, com = m2−1) of the rounded K; J = 3K − 2D. -/
def calculate_kdj (df : DF) (n : ℕ := 9) (m1 : ℕ := 3) (m2 : ℕ := 3) : DF :=
  let rsv := kdjRsvFilled df n
  let k := (ewm (1 / (1 + (m1 - 1 : ℕ) : ℚ)) rsv).map (pround 2)
  let d := (ewm (1 / (1 + (m2 - 1 : ℕ) : ℚ)) k).map (pround 2)
  let j := (List.zipWith
      (fun a b => PVal.sub (PVal.mul (PVal.num 3) a) (PVal.mul (PVal.num 2) b)) k d).map
    (pround 2)
  ((df.setCol "KDJ_K" k).setCol "KDJ_D" d).setCol "KDJ_J" j

/-- `close.diff()` then `delta.where(delta > 0, 0)`: the leading `NaN` delta
compares as not-greater and becomes 0, so gains are plain rationals. -/
def rsiGain (close : List ℚ) : List ℚ :=
  match close with
  | [] => []
  | _ :: tl => 0 :: List.zipWith (fun a b => if 0 < a - b then a - b else 0) tl close

/-- `-delta.where(delta < 0, 0)`: negated negative deltas, 0 elsewhere
(including the leading `NaN` delta). -/
def rsiLoss (close : List ℚ) : List ℚ :=
  match close with
  | [] => []
  | _ :: tl => 0 :: List.zipWith (fun a b => if a - b < 0 then -(a - b) else 0) tl close

/-- One RSI column: `avg_gain / avg_loss.replace(0, inf)` then
`100 − 100/(1+rs)`, rounded to 2 decimals. -/
def rsiCol (close : List ℚ) (p : ℕ) : List PVal :=
  let avgGain := rollingMean p (rsiGain close)
  let avgLoss := rollingMean p (rsiLoss close)
  (List.range close.length).map (fun i =>
    let lossRep : PVal :=
      if avgLoss.getD i 0 = 0 then PVal.pinf else PVal.num (avgLoss.getD i 0)
    let rs := PVal.div (PVal.num (avgGain.getD i 0)) lossRep
    pround 2
      (PVal.sub (PVal.num 100) (PVal.div (PVal.num 100) (PVal.add (PVal.num 1) rs))))

/-- `calculate_rsi` for periods 6, 12, 24. -/
def calculate_rsi (df : DF) (periods : List ℕ := [6, 12, 24]) : DF :=
  periods.foldl (fun d p => d.setCol ("RSI" ++ toString p) (rsiCol df.close p)) df

/-- `calculate_boll`: MID = rolling mean rounded to 4; UPPER/LOWER =
rounded MID ± std_dev × rolling_std (std `NaN` on windows of one point). -/
def calculate_boll (sqrt : ℚ → ℚ) (df : DF) (period : ℕ := 20) (std_dev : ℚ := 2) : DF :=
  let mid := (rollingMean period df.close).map (fun q => PVal.num (qround 4 q))
  let rstd := rollingStd sqrt period df.close
  let upper := (List.zipWith (fun m s => PVal.add m (PVal.mul (PVal.num std_dev) s)) mid rstd).map
    (pround 4)
  let lower := (List.zipWith (fun m s => PVal.sub m (PVal.mul (PVal.num std_dev) s)) mid rstd).map
    (pround 4)
  ((df.setCol "BOLL_MID" mid).setCol "BOLL_UPPER" upper).setCol "BOLL_LOWER" lower

/-- `calculate_all`: MA, MACD, KDJ, RSI, Bollinger in order. -/
def calculate_all (sqrt : ℚ → ℚ) (df : DF) : DF :=
  calculate_boll sqrt (calculate_rsi (calculate_kdj (calculate_macd (calculate_ma df))))

end TechnicalAnalyzer

/-! ## Cache manager (`app/core/cache_manager.py`)

Wall-clock instants (`datetime.utcnow()`, expiry stamps) are modelled as
naturals. The cache maps string keys to a value together with its absolute
expiry instant. -/

/-- One cached entry: the value and its absolute expiry instant. -/
structure CacheEntry (α : Type) where
  value : α
  expires_at : ℕ
deriving DecidableEq, Repr

/-- The in-memory cache: an association list of keys to entries. -/
abbrev Cache (α : Type) : Type := List (String × CacheEntry α)

/-- `CacheManager.get`: absent keys yield `None`; an entry whose expiry is
strictly in the past is deleted and treated as absent. Returns the value
(if live) and the possibly-updated cache. -/
def cacheGet {α : Type} (c : Cache α) (key : String) (now : ℕ) :
    Option α × Cache α :=
  match c.lookup key with
  | none => (none, c)
  | some e =>
      if e.expires_at < now then (none, c.filter (fun p => !(p.1 == key)))
      else (some e.value, c)

/-- `CacheManager.set`: store the value with expiry `now + ttl`. -/
def cacheSet {α : Type} (c : Cache α) (key : String) (v : α) (now ttl : ℕ) :
    Cache α :=
  c.filter (fun p => !(p.1 == key)) ++ [(key, ⟨v, now + ttl⟩)]

/-- `get_cache_key`: join the prefix and arguments with `":"`. -/
def get_cache_key (parts : List String) : String :=
  String.intercalate ":" parts

/-! ## NAV estimator (`app/core/nav_estimator.py`)

The external world seen by one `get_estimated_nav` call — database rows and
provider responses, each already reduced to what the code extracts from it —
is collected into an `Env`. Every provider failure path in the Python code
(exception or empty payload) returns a sentinel (`None`, `[]`, `{}`), which
the `Option`/list fields model directly. -/

/-- One stock holding row as returned by `get_fund_holdings`
(only the fields the estimator reads). -/
structure Holding where
  stock_code : String
  percentage : ℚ
deriving DecidableEq, Repr

/-- One `NavHistory` database row for the fund: date and NAV value. -/
structure NavRec where
  date : ℕ
  nav : ℚ
deriving DecidableEq, Repr

/-- The vendor (`get_realtime_nav`) payload, reduced to the fields used. -/
structure Realtime where
  fund_name : String
  current_nav : ℚ
  estimated_nav : ℚ
  estimated_growth : ℚ
deriving DecidableEq, Repr

/-- Which branch produced the result (`calculation_method`). -/
inductive CalcMethod where
  | holdings_based
  | tiantian_api
deriving DecidableEq, Repr

/-- The estimation result dictionary built by the estimator. `stock_ratio`
and `holdings_count` are `None` in the vendor-fallback result. -/
structure EstimationResult where
  fund_code : String
  fund_name : String
  current_nav : ℚ
  estimated_nav : ℚ
  change_percent : ℚ
  last_update : ℕ
  is_trading_hours : Bool
  calculation_method : CalcMethod
  stock_ratio : Option ℚ
  holdings_count : Option ℕ
deriving DecidableEq, Repr

/-- The deterministic outside world of one estimation call. -/
structure Env where
  fund_code : String
  /-- `db_session` argument was provided. -/
  hasDb : Bool
  /-- The fund row exists in the database. -/
  fundExists : Bool
  /-- `Fund.name` column of the fund row. -/
  dbFundName : String
  /-- `get_fund_info` result's name, when the API call succeeds. -/
  apiFundName : Option String
  /-- `NavHistory` rows for the fund. -/
  navRecords : List NavRec
  /-- `get_fund_holdings` result (empty on failure). -/
  holdings : List Holding
  /-- `stock_ratio` of `get_fund_asset_allocation` (`none` when the call
  failed and returned `{}`). -/
  allocStockRatio : Option ℚ
  /-- `get_stock_prices` result: code ↦ `change_percent`. -/
  stockPrices : List (String × ℚ)
  /-- `get_realtime_nav` result (`none` on failure). -/
  realtime : Option Realtime
  /-- `date.today()`. -/
  today : ℕ
  /-- `datetime.now()` / `datetime.utcnow()` instant of the call. -/
  now : ℕ
  /-- `is_trading_hours()` at the call instant. -/
  isTrading : Bool
  /-- `settings.cache_realtime_nav_ttl`. -/
  ttl : ℕ

namespace NavEstimator

/-- Python `pat in s` on strings: contiguous substring containment,
decided character by character. -/
def containsSub (pat : List Char) : List Char → Bool
  | [] => pat.isEmpty
  | c :: tl => pat.isPrefixOf (c :: tl) || containsSub pat tl

/-- `is_etf_linked_fund`: the name contains the feeder-fund marker. -/
def is_etf_linked_fund (fund_name : String) : Bool :=
  containsSub "联接".data fund_name.data

/-- One step of scanning for the most recent `NavHistory` row. -/
def latestStep (acc : Option NavRec) (r : NavRec) : Option NavRec :=
  match acc with
  | none => some r
  | some a => if a.date < r.date then some r else acc

/-- The most recent `NavHistory` row (`order_by date desc limit 1`). -/
def latestNav (records : List NavRec) : Option NavRec :=
  records.foldl latestStep none

/-- `is_today_nav_published`: the latest stored NAV row is dated today.
`False` without a session or fund row. -/
def is_today_nav_published (env : Env) : Bool :=
  if !env.hasDb then false
  else if !env.fundExists then false
  else
    match latestNav env.navRecords with
    | some r => r.date = env.today
    | none => false

/-- The claim-relevant shape invariant on results (spec §3): the calculation
method determines whether the optional holdings fields are populated. -/
def resultInv (r : EstimationResult) : Prop :=
  (r.calculation_method = CalcMethod.holdings_based ↔
    r.stock_ratio.isSome ∧ r.holdings_count.isSome) ∧
  (r.calculation_method = CalcMethod.tiantian_api →
    r.stock_ratio = none ∧ r.holdings_count = none)

instance (r : EstimationResult) : Decidable (resultInv r) := by
  unfold resultInv; infer_instance

/-- `_get_previous_nav`: the latest stored NAV value, `None` without a
session or fund row. -/
def getPreviousNav (env : Env) : Option ℚ :=
  if !env.hasDb then none
  else if !env.fundExists then none
  else (latestNav env.navRecords).map (·.nav)

/-- `_get_fund_name`: DB name when a session and fund row exist; otherwise
the fund-info API name; the fund code on any failure. -/
def getFundName (env : Env) : String :=
  if !env.hasDb then (env.apiFundName.getD env.fund_code)
  else if env.fundExists then env.dbFundName
  else env.fund_code

/-- `_get_actual_nav`: today's stored NAV row if present (returned even when
its value is 0.0), else the vendor `current_nav` when truthy, else `None`;
`None` without a session. -/
def getActualNav (env : Env) : Option ℚ :=
  if !env.hasDb then none
  else
    match (if env.fundExists then env.navRecords.find? (fun r => r.date = env.today)
           else none) with
    | some r => some r.nav
    | none =>
        match env.realtime with
        | some rt => if rt.current_nav ≠ 0 then some rt.current_nav else none
        | none => none

/-- `_get_tiantian_estimate`: the vendor-fallback result, `none` when the
vendor call fails. `actual_nav = _get_actual_nav(...) or current_nav` uses
Python falsiness (`None` and `0.0` both fall through). -/
def tiantianEstimate (env : Env) : Option EstimationResult :=
  match env.realtime with
  | none => none
  | some rt =>
      let actual_nav : ℚ :=
        match getActualNav env with
        | some v => if v = 0 then rt.current_nav else v
        | none => rt.current_nav
      let today_published := is_today_nav_published env
      let should_show_estimate := !today_published
      some
        { fund_code := env.fund_code
          fund_name := rt.fund_name
          current_nav := actual_nav
          estimated_nav := if should_show_estimate then rt.estimated_nav else actual_nav
          change_percent := if should_show_estimate then rt.estimated_growth else 0
          last_update := env.now
          is_trading_hours := env.isTrading
          calculation_method := CalcMethod.tiantian_api
          stock_ratio := none
          holdings_count := none }

/-- One iteration of the weighted-change loop: if the holding's stock code
has a quote, add `pct/100 × change/100` to the weighted change and `pct/100`
to the total weight; otherwise skip the holding. -/
def weightStep (prices : List (String × ℚ)) (acc : ℚ × ℚ) (h : Holding) : ℚ × ℚ :=
  match prices.lookup h.stock_code with
  | some chg => (acc.1 + h.percentage / 100 * (chg / 100), acc.2 + h.percentage / 100)
  | none => acc

/-- The raw weighted-change / total-weight accumulation loop over holdings. -/
def weightSums (holdings : List Holding) (prices : List (String × ℚ)) : ℚ × ℚ :=
  holdings.foldl (weightStep prices) (0, 0)

/-- The realtime-NAV cache key `("fund", fund_code, "nav", "realtime")`. -/
def navCacheKey (env : Env) : String :=
  get_cache_key ["fund", env.fund_code, "nav", "realtime"]

/-- The result dictionary built at the end of the holdings-based path:
`stock_ratio` defaulting to 0.95, the weighted-change loop, the
renormalization guard `0 < total_weight < 1.0`, and
`estimated_nav = previous_nav × (1 + weighted_change × stock_ratio)`. -/
def holdingsResult (env : Env) (previous_nav : ℚ) : EstimationResult :=
  let stock_ratio := env.allocStockRatio.getD (95 / 100)
  let sums := weightSums env.holdings env.stockPrices
  let weighted_change := if 0 < sums.2 ∧ sums.2 < 1 then sums.1 / sums.2 else sums.1
  { fund_code := env.fund_code
    fund_name := getFundName env
    current_nav := previous_nav
    estimated_nav := previous_nav * (1 + weighted_change * stock_ratio)
    change_percent := weighted_change * stock_ratio * 100
    last_update := env.now
    is_trading_hours := env.isTrading
    calculation_method := CalcMethod.holdings_based
    stock_ratio := some stock_ratio
    holdings_count := some env.holdings.length }

/-- `get_estimated_nav`: cache check, feeder-fund classification, the
holdings-based path, the vendor fallback, and the cache store. Returns the
result (or `none`) together with the cache after the call. -/
def get_estimated_nav (env : Env) (c : Cache EstimationResult) :
    Option EstimationResult × Cache EstimationResult :=
  let cache_key := navCacheKey env
  let hit := cacheGet c cache_key env.now
  match hit.1 with
  | some cached => (some cached, hit.2)
  | none =>
      if is_etf_linked_fund (getFundName env) then (tiantianEstimate env, hit.2)
      else
        match getPreviousNav env with
        | none => (tiantianEstimate env, hit.2)
        | some previous_nav =>
            -- `if not previous_nav:` — Python falsiness, 0.0 also falls back
            if previous_nav = 0 then (tiantianEstimate env, hit.2)
            else if env.holdings.isEmpty then (tiantianEstimate env, hit.2)
            else
              (some (holdingsResult env previous_nav),
                cacheSet hit.2 cache_key (holdingsResult env previous_nav) env.now env.ttl)

end NavEstimator

/-! ## Concrete fixtures used by witnesses and counterexamples -/

/-- A vendor payload used in several concrete scenarios. -/
def rtFix : Realtime :=
  { fund_name := "示例基金", current_nav := 2, estimated_nav := 21/10, estimated_growth := 5 }

/-- No database session, vendor answers: the estimation succeeds through the
vendor-fallback path with nothing cached before or after. -/
def envVendorOnly : Env :=
  { fund_code := "000001", hasDb := false, fundExists := false, dbFundName := ""
    apiFundName := some "普通股票基金", navRecords := [], holdings := []
    allocStockRatio := none, stockPrices := [], realtime := some rtFix
    today := 10, now := 100, isTrading := true, ttl := 60 }

/-- A fully-populated holdings-based scenario (one quoted holding). -/
def envHoldings : Env :=
  { fund_code := "000002", hasDb := true, fundExists := true, dbFundName := "股票型基金"
    apiFundName := none, navRecords := [⟨9, 2⟩], holdings := [⟨"600000", 60⟩]
    allocStockRatio := some (9/10), stockPrices := [("600000", 2)], realtime := none
    today := 10, now := 100, isTrading := false, ttl := 60 }

/-- Partial quote coverage: two holdings, only one quoted (weight 0.6). -/
def envPartial : Env :=
  { fund_code := "000003", hasDb := true, fundExists := true, dbFundName := "混合型基金"
    apiFundName := none, navRecords := [⟨9, 2⟩], holdings := [⟨"600000", 60⟩, ⟨"600001", 30⟩]
    allocStockRatio := some (9/10), stockPrices := [("600000", 2)], realtime := none
    today := 10, now := 100, isTrading := false, ttl := 60 }

/-- A feeder ("联接") fund with previous NAV, holdings, allocation and quotes
all available, plus a live vendor payload. -/
def envLinked : Env :=
  { fund_code := "000004", hasDb := true, fundExists := true
    dbFundName := "沪深300ETF联接A", apiFundName := none, navRecords := [⟨9, 2⟩]
    holdings := [⟨"600000", 60⟩], allocStockRatio := some (9/10)
    stockPrices := [("600000", 2)], realtime := some rtFix
    today := 10, now := 100, isTrading := true, ttl := 60 }

/-- Today's NAV already stored (record dated `today`), vendor answering. -/
def envPublished : Env :=
  { fund_code := "000005", hasDb := true, fundExists := true, dbFundName := "普通基金"
    apiFundName := none, navRecords := [⟨9, 28/10⟩, ⟨10, 3⟩], holdings := []
    allocStockRatio := none, stockPrices := [], realtime := some rtFix
    today := 10, now := 100, isTrading := true, ttl := 60 }

/-- Stored previous NAV exists but equals 0.0; vendor answering. -/
def envZeroPrev : Env :=
  { fund_code := "000006", hasDb := true, fundExists := true, dbFundName := "普通基金"
    apiFundName := none, navRecords := [⟨9, 0⟩], holdings := [⟨"600000", 60⟩]
    allocStockRatio := some (9/10), stockPrices := [("600000", 2)], realtime := some rtFix
    today := 10, now := 100, isTrading := true, ttl := 60 }

/-! ## Helper lemmas -/

theorem lookup_cons {β : Type} (k k' : String) (b : β) (t : List (String × β)) :
    List.lookup k ((k', b) :: t) = if k = k' then some b else t.lookup k := by
  by_cases h : k = k'
  · simp [List.lookup, h]
  · rw [List.lookup, show (k == k') = false from beq_eq_false_iff_ne.mpr h, if_neg h]

theorem lookup_filter_append {β : Type} (l : List (String × β)) (k : String) (x : β) :
    (l.filter (fun p => !(p.1 == k)) ++ [(k, x)]).lookup k = some x := by
  induction l with
  | nil => simp [lookup_cons]
  | cons hd tl ih =>
      by_cases h : hd.1 = k
      · simpa [List.filter_cons, h] using ih
      · rw [List.filter_cons,
          if_pos (by simpa using h), List.cons_append,
          show ((hd.1, hd.2) :: (tl.filter (fun p => !(p.1 == k)) ++ [(k, x)])).lookup k =
            if k = hd.1 then some hd.2
            else (tl.filter (fun p => !(p.1 == k)) ++ [(k, x)]).lookup k from
            lookup_cons k hd.1 hd.2 _,
          if_neg (Ne.symm h)]
        exact ih

theorem lookup_filter_append_ne {β : Type} (l : List (String × β)) {k m : String}
    (h : m ≠ k) (x : β) :
    (l.filter (fun p => !(p.1 == k)) ++ [(k, x)]).lookup m = l.lookup m := by
  induction l with
  | nil => simp [lookup_cons, h]
  | cons hd tl ih =>
      by_cases hk : hd.1 = k
      · have hm : m ≠ hd.1 := fun hm => h (hm ▸ hk)
        rw [List.filter_cons, if_neg (by simpa using hk),
          show ((hd.1, hd.2) :: tl).lookup m = if m = hd.1 then some hd.2 else tl.lookup m from
            lookup_cons m hd.1 hd.2 tl, if_neg hm]
        exact ih
      · rw [List.filter_cons, if_pos (by simpa using hk), List.cons_append,
          show ((hd.1, hd.2) :: (tl.filter (fun p => !(p.1 == k)) ++ [(k, x)])).lookup m =
            if m = hd.1 then some hd.2
            else (tl.filter (fun p => !(p.1 == k)) ++ [(k, x)]).lookup m from
            lookup_cons m hd.1 hd.2 _,
          show ((hd.1, hd.2) :: tl).lookup m = if m = hd.1 then some hd.2 else tl.lookup m from
            lookup_cons m hd.1 hd.2 tl]
        by_cases hm : m = hd.1
        · rw [if_pos hm, if_pos hm]
        · rw [if_neg hm, if_neg hm]; exact ih

theorem lookup_mem {β : Type} {l : List (String × β)} {k : String} {b : β}
    (h : l.lookup k = some b) : (k, b) ∈ l := by
  induction l with
  | nil => simp [List.lookup] at h
  | cons hd tl ih =>
      rw [show List.lookup k (hd :: tl) = List.lookup k ((hd.1, hd.2) :: tl) from rfl,
        lookup_cons] at h
      by_cases hk : k = hd.1
      · rw [if_pos hk] at h
        cases h
        exact hk ▸ List.mem_cons_self _ _
      · rw [if_neg hk] at h
        exact List.mem_cons_of_mem _ (ih h)

theorem DF.getCol_setCol (df : DF) (n : String) (v : List PVal) :
    (df.setCol n v).getCol n = v := by
  simp [DF.setCol, DF.getCol, lookup_filter_append]

theorem DF.getCol_setCol_ne (df : DF) {n m : String} (h : m ≠ n) (v : List PVal) :
    (df.setCol n v).getCol m = df.getCol m := by
  simp [DF.setCol, DF.getCol, lookup_filter_append_ne _ h]

theorem listMin_le {l : List ℚ} {x : ℚ} (hx : x ∈ l) : listMin l ≤ x := by
  cases l with
  | nil => cases hx
  | cons a t =>
      suffices h : ∀ (t : List ℚ) (a : ℚ), t.foldl min a ≤ a ∧ ∀ y ∈ t, t.foldl min a ≤ y by
        rcases List.mem_cons.mp hx with rfl | hx
        · exact (h t x).1
        · exact (h t a).2 x hx
      intro t
      induction t with
      | nil => intro a; exact ⟨le_refl a, by intro y hy; cases hy⟩
      | cons b t ih =>
          intro a
          refine ⟨le_trans (ih (min a b)).1 (min_le_left a b), ?_⟩
          intro y hy
          rcases List.mem_cons.mp hy with rfl | hy
          · exact le_trans (ih (min a y)).1 (min_le_right a y)
          · exact (ih (min a b)).2 y hy

theorem le_listMax {l : List ℚ} {x : ℚ} (hx : x ∈ l) : x ≤ listMax l := by
  cases l with
  | nil => cases hx
  | cons a t =>
      suffices h : ∀ (t : List ℚ) (a : ℚ), a ≤ t.foldl max a ∧ ∀ y ∈ t, y ≤ t.foldl max a by
        rcases List.mem_cons.mp hx with rfl | hx
        · exact (h t x).1
        · exact (h t a).2 x hx
      intro t
      induction t with
      | nil => intro a; exact ⟨le_refl a, by intro y hy; cases hy⟩
      | cons b t ih =>
          intro a
          refine ⟨le_trans (le_max_left a b) (ih (max a b)).1, ?_⟩
          intro y hy
          rcases List.mem_cons.mp hy with rfl | hy
          · exact le_trans (le_max_right a y) (ih (max a y)).1
          · exact (ih (max a b)).2 y hy

theorem getD_mem_rollWindow {xs : List ℚ} {i w : ℕ} (hi : i < xs.length) (hw : 0 < w) :
    xs.getD i 0 ∈ rollWindow w xs i := by
  unfold rollWindow
  have h1 : (xs.take (i + 1)).get? i = xs.get? i := List.get?_take (Nat.lt_succ_self i)
  have h2 : ((xs.take (i + 1)).drop (i + 1 - w)).get? (i - (i + 1 - w)) =
      (xs.take (i + 1)).get? (i + 1 - w + (i - (i + 1 - w))) := List.get?_drop _ _ _
  have h3 : i + 1 - w + (i - (i + 1 - w)) = i := by omega
  have h4 : xs.get? i = some (xs.getD i 0) := by
    rw [List.getD_eq_get? ]
    cases h : xs.get? i with
    | none => exact absurd (List.get?_eq_none.mp h) (by omega)
    | some v => rfl
  have h5 : ((xs.take (i + 1)).drop (i + 1 - w)).get? (i - (i + 1 - w)) =
      some (xs.getD i 0) := by rw [h2, h3, h1, h4]
  exact List.get?_mem h5

theorem getD_range_map {β : Type} (f : ℕ → β) {n i : ℕ} (hi : i < n) (d : β) :
    (((List.range n).map f).getD i d) = f i := by
  rw [List.getD_eq_get?, List.get?_map, List.get?_range hi]
  rfl

theorem bars_foldl {α : Type} :
    ∀ (l : List α) (g : DF → α → DF), (∀ d a, (g d a).bars = d.bars) →
      ∀ df : DF, (l.foldl g df).bars = df.bars := by
  intro l
  induction l with
  | nil => intro g _ df; rfl
  | cons x t ih =>
      intro g hg df
      rw [List.foldl_cons, ih g hg (g df x), hg df x]

theorem calculate_ma_bars (df : DF) (ps : List ℕ) :
    (TechnicalAnalyzer.calculate_ma df ps).bars = df.bars := by
  unfold TechnicalAnalyzer.calculate_ma
  exact bars_foldl ps
    (fun d p => d.setCol ("MA" ++ toString p)
      (List.map (fun q => PVal.num (qround 4 q)) (rollingMean p df.close)))
    (fun _ _ => rfl) df

theorem calculate_rsi_bars (df : DF) (ps : List ℕ) :
    (TechnicalAnalyzer.calculate_rsi df ps).bars = df.bars := by
  unfold TechnicalAnalyzer.calculate_rsi
  exact bars_foldl ps
    (fun d p => d.setCol ("RSI" ++ toString p) (TechnicalAnalyzer.rsiCol df.close p))
    (fun _ _ => rfl) df

theorem calculate_macd_bars (df : DF) (fast slow signal : ℕ) :
    (TechnicalAnalyzer.calculate_macd df fast slow signal).bars = df.bars := rfl

theorem calculate_kdj_bars (df : DF) (n m1 m2 : ℕ) :
    (TechnicalAnalyzer.calculate_kdj df n m1 m2).bars = df.bars := rfl

theorem calculate_boll_bars (sqrt : ℚ → ℚ) (df : DF) (period : ℕ) (std_dev : ℚ) :
    (TechnicalAnalyzer.calculate_boll sqrt df period std_dev).bars = df.bars := rfl

theorem calculate_all_bars (sqrt : ℚ → ℚ) (df : DF) :
    (TechnicalAnalyzer.calculate_all sqrt df).bars = df.bars := by
  show (TechnicalAnalyzer.calculate_boll sqrt _).bars = _
  rw [calculate_boll_bars, calculate_rsi_bars, calculate_kdj_bars, calculate_macd_bars,
    calculate_ma_bars]

namespace NavEstimator

theorem latestFold_mem :
    ∀ (l : List NavRec) (acc : Option NavRec) (r : NavRec),
      l.foldl latestStep acc = some r → r ∈ l ∨ acc = some r := by
  intro l
  induction l with
  | nil => intro acc r h; exact Or.inr h
  | cons x t ih =>
      intro acc r h
      rcases ih (latestStep acc x) r h with hm | he
      · exact Or.inl (List.mem_cons_of_mem _ hm)
      · cases acc with
        | none =>
            simp only [latestStep] at he
            cases he
            exact Or.inl (List.mem_cons_self _ _)
        | some a =>
            simp only [latestStep] at he
            by_cases hd : a.date < x.date
            · rw [if_pos hd] at he
              cases he
              exact Or.inl (List.mem_cons_self _ _)
            · rw [if_neg hd] at he
              exact Or.inr he

theorem latestFold_max :
    ∀ (l : List NavRec) (acc : Option NavRec) (r : NavRec),
      l.foldl latestStep acc = some r →
      (∀ x ∈ l, x.date ≤ r.date) ∧ (∀ a, acc = some a → a.date ≤ r.date) := by
  intro l
  induction l with
  | nil =>
      intro acc r h
      refine ⟨(by intro x hx; cases hx), ?_⟩
      intro a ha
      rw [ha] at h
      cases h
      exact le_refl _
  | cons x t ih =>
      intro acc r h
      obtain ⟨ht, hacc⟩ := ih (latestStep acc x) r h
      have hstep : ∀ b, latestStep acc x = some b → b.date ≤ r.date := fun b hb => hacc b hb
      have hx : x.date ≤ r.date := by
        cases acc with
        | none => exact hstep x rfl
        | some a =>
            by_cases hd : a.date < x.date
            · exact hstep x (by simp [latestStep, if_pos hd])
            · exact le_trans (Nat.le_of_not_lt hd) (hstep a (by simp [latestStep, if_neg hd]))
      refine ⟨?_, ?_⟩
      · intro y hy
        rcases List.mem_cons.mp hy with rfl | hy
        · exact hx
        · exact ht y hy
      · intro a ha
        cases ha
        by_cases hd : a.date < x.date
        · exact le_trans (Nat.le_of_lt hd) hx
        · exact hstep a (by simp [latestStep, if_neg hd])

theorem latestFold_isSome :
    ∀ (l : List NavRec) (acc : Option NavRec), acc.isSome → (l.foldl latestStep acc).isSome := by
  intro l
  induction l with
  | nil => intro acc h; exact h
  | cons x t ih =>
      intro acc h
      refine ih (latestStep acc x) ?_
      cases acc with
      | none => rfl
      | some a =>
          simp only [latestStep]
          by_cases hd : a.date < x.date
          · rw [if_pos hd]; rfl
          · rw [if_neg hd]; rfl

theorem latestNav_ne_nil {l : List NavRec} (h : l ≠ []) : (latestNav l).isSome := by
  cases l with
  | nil => exact absurd rfl h
  | cons x t => exact latestFold_isSome t (latestStep none x) rfl

theorem weightStep_cases (prices : List (String × ℚ)) (acc : ℚ × ℚ) (h : Holding) :
    weightStep prices acc h = acc ∨
    ∃ chg, prices.lookup h.stock_code = some chg ∧
      weightStep prices acc h =
        (acc.1 + h.percentage / 100 * (chg / 100), acc.2 + h.percentage / 100) := by
  unfold weightStep
  cases hl : prices.lookup h.stock_code with
  | none => exact Or.inl rfl
  | some chg => exact Or.inr ⟨chg, rfl, rfl⟩

theorem weightFold_snd_mono :
    ∀ (l : List Holding) (prices : List (String × ℚ)) (acc : ℚ × ℚ),
      (∀ h ∈ l, 0 ≤ h.percentage) → acc.2 ≤ (l.foldl (weightStep prices) acc).2 := by
  intro l
  induction l with
  | nil => intro prices acc _; exact le_refl _
  | cons h t ih =>
      intro prices acc hp
      have h0 : 0 ≤ h.percentage := hp h (List.mem_cons_self _ _)
      have ht : ∀ x ∈ t, 0 ≤ x.percentage := fun x hx => hp x (List.mem_cons_of_mem _ hx)
      have hrec := ih prices (weightStep prices acc h) ht
      rw [List.foldl_cons]
      refine le_trans ?_ hrec
      rcases weightStep_cases prices acc h with heq | ⟨chg, _, heq⟩
      · rw [heq]
      · rw [heq]
        have : (0:ℚ) ≤ h.percentage / 100 := by positivity
        simp only []
        linarith

theorem weightFold_fst_of_snd_eq :
    ∀ (l : List Holding) (prices : List (String × ℚ)) (acc : ℚ × ℚ),
      (∀ h ∈ l, 0 ≤ h.percentage) →
      (l.foldl (weightStep prices) acc).2 = acc.2 →
      (l.foldl (weightStep prices) acc).1 = acc.1 := by
  intro l
  induction l with
  | nil => intro prices acc _ _; rfl
  | cons h t ih =>
      intro prices acc hp hsnd
      have h0 : 0 ≤ h.percentage := hp h (List.mem_cons_self _ _)
      have ht : ∀ x ∈ t, 0 ≤ x.percentage := fun x hx => hp x (List.mem_cons_of_mem _ hx)
      rw [List.foldl_cons] at hsnd ⊢
      have hmono := weightFold_snd_mono t prices (weightStep prices acc h) ht
      have hstep_eq : weightStep prices acc h = acc := by
        rcases weightStep_cases prices acc h with heq | ⟨chg, _, heq⟩
        · exact heq
        · rw [heq] at hsnd hmono
          have hzero : h.percentage / 100 = 0 := by
            simp only [] at hsnd hmono
            linarith
          rw [heq]
          have hpz : h.percentage = 0 := by
            field_simp at hzero
            exact hzero
          ext
          · simp [hpz]
          · simp [hpz]
      rw [hstep_eq] at hsnd ⊢
      exact ih prices acc ht hsnd

theorem cacheGet_fst_some {α : Type} {c : Cache α} {k : String} {now : ℕ} {v : α}
    (h : (cacheGet c k now).1 = some v) :
    ∃ e : CacheEntry α, (k, e) ∈ c ∧ e.value = v := by
  unfold cacheGet at h
  cases hl : List.lookup k c with
  | none => rw [hl] at h; cases h
  | some e =>
      rw [hl] at h
      simp only [] at h
      by_cases he : e.expires_at < now
      · rw [if_pos he] at h; cases h
      · rw [if_neg he] at h
        cases h
        exact ⟨e, lookup_mem hl, rfl⟩

theorem tiantianEstimate_method {env : Env} {r : EstimationResult}
    (h : tiantianEstimate env = some r) :
    r.calculation_method = CalcMethod.tiantian_api := by
  unfold tiantianEstimate at h
  cases hrt : env.realtime with
  | none => rw [hrt] at h; cases h
  | some rt =>
      rw [hrt] at h
      simp only [] at h
      cases h
      rfl

theorem tiantianEstimate_fields {env : Env} {rt : Realtime} (hrt : env.realtime = some rt) :
    ∃ r, tiantianEstimate env = some r ∧
      r.calculation_method = CalcMethod.tiantian_api ∧
      r.stock_ratio = none ∧ r.holdings_count = none ∧
      (is_today_nav_published env = true →
        r.change_percent = 0 ∧ r.estimated_nav = r.current_nav) ∧
      (is_today_nav_published env = false →
        r.estimated_nav = rt.estimated_nav ∧ r.change_percent = rt.estimated_growth) := by
  refine ⟨_, by unfold tiantianEstimate; rw [hrt], rfl, rfl, rfl, ?_, ?_⟩
  · intro hp
    simp only [hp]
    exact ⟨rfl, rfl⟩
  · intro hp
    simp only [hp]
    exact ⟨rfl, rfl⟩

theorem is_today_nav_published_true {env : Env}
    (hDb : env.hasDb = true) (hFund : env.fundExists = true)
    (hEx : ∃ rec ∈ env.navRecords, rec.date = env.today)
    (hLe : ∀ rec ∈ env.navRecords, rec.date ≤ env.today) :
    is_today_nav_published env = true := by
  obtain ⟨rec, hmem, hdate⟩ := hEx
  have hne : env.navRecords ≠ [] := by
    intro h
    rw [h] at hmem
    cases hmem
  obtain ⟨m, hm⟩ := Option.isSome_iff_exists.mp (latestNav_ne_nil hne)
  have hmem' : m ∈ env.navRecords := by
    rcases latestFold_mem env.navRecords none m hm with h | h
    · exact h
    · cases h
  have hmax := (latestFold_max env.navRecords none m hm).1
  have : m.date = env.today :=
    le_antisymm (hLe m hmem') (hdate ▸ hmax rec hmem)
  unfold is_today_nav_published
  rw [hDb, hFund]
  simp [hm, this]

theorem is_today_nav_published_false {env : Env}
    (hNe : ∀ rec ∈ env.navRecords, rec.date ≠ env.today) :
    is_today_nav_published env = false := by
  unfold is_today_nav_published
  by_cases hDb : env.hasDb
  · by_cases hFund : env.fundExists
    · rw [hDb, hFund]
      cases hm : latestNav env.navRecords with
      | none => simp
      | some m =>
          have hmem : m ∈ env.navRecords := by
            rcases latestFold_mem env.navRecords none m hm with h | h
            · exact h
            · cases h
          simp [hNe m hmem]
    · simp [hDb, hFund]
  · simp [hDb]

end NavEstimator

/-! ## Claims about the NAV estimation engine -/

namespace NavEstimator

/-- C2, counterexample: with an empty cache and no database session the
estimation succeeds through the vendor-fallback path, yet the cache after
the call still has no entry under the realtime-NAV key — contradicting the
claim that every successful result is stored in the cache. -/
theorem C2_counterexample :
    ((get_estimated_nav envVendorOnly []).1.isSome = true) ∧
    ((get_estimated_nav envVendorOnly []).2.lookup (navCacheKey envVendorOnly) = none) := by
  constructor
  · rfl
  · rfl

/-- C2, amended: on a cache miss, a successful result computed by the
holdings-based path is stored under the realtime-NAV key with expiry
`now + ttl`; vendor-fallback results are returned without being cached
(see the counterexample). -/
theorem C2_holdings_result_cached (env : Env) (c : Cache EstimationResult)
    (r : EstimationResult)
    (hMiss : (cacheGet c (navCacheKey env) env.now).1 = none)
    (hSome : (get_estimated_nav env c).1 = some r)
    (hMethod : r.calculation_method = CalcMethod.holdings_based) :
    ((get_estimated_nav env c).2).lookup (navCacheKey env) =
      some ⟨r, env.now + env.ttl⟩ := by
  have hmain : get_estimated_nav env c =
      (some r, cacheSet (cacheGet c (navCacheKey env) env.now).2 (navCacheKey env) r
        env.now env.ttl) := by
    revert hSome
    simp only [get_estimated_nav, hMiss]
    by_cases hL : is_etf_linked_fund (getFundName env)
    · simp only [hL, if_true]
      intro hSome
      exact absurd (tiantianEstimate_method hSome) (by rw [hMethod]; intro h; cases h)
    · simp only [hL, if_false, Bool.false_eq_true]
      cases hP : getPreviousNav env with
      | none =>
          intro hSome
          exact absurd (tiantianEstimate_method hSome) (by rw [hMethod]; intro h; cases h)
      | some p =>
          simp only []
          by_cases hp0 : p = 0
          · simp only [hp0, if_true]
            intro hSome
            exact absurd (tiantianEstimate_method hSome) (by rw [hMethod]; intro h; cases h)
          · simp only [if_neg hp0]
            by_cases hE : env.holdings.isEmpty
            · simp only [hE, if_true]
              intro hSome
              exact absurd (tiantianEstimate_method hSome) (by rw [hMethod]; intro h; cases h)
            · simp only [hE, Bool.false_eq_true, if_false]
              intro hSome
              cases hSome
              rfl
  rw [hmain]
  exact lookup_filter_append _ _ _

/-- C2, witness: the concrete holdings-based scenario is cached with
expiry `now + ttl = 160`. -/
theorem C2_witness :
    ((get_estimated_nav envHoldings []).2).lookup (navCacheKey envHoldings) =
      some ⟨(get_estimated_nav envHoldings []).1.getD
        (holdingsResult envHoldings 2), 160⟩ := by
  exact C2_holdings_result_cached envHoldings [] _ rfl rfl rfl

/-- C6: on a cache miss, a fund whose resolved display name contains the
feeder-fund marker is estimated exclusively through the vendor fallback —
the call returns exactly `tiantianEstimate`, and any successful result has
`calculation_method = tiantian_api` — even when previous NAV, holdings,
allocation and quotes are all available in the environment. -/
theorem C6_linked_fund_vendor_only (env : Env) (c : Cache EstimationResult)
    (hMiss : (cacheGet c (navCacheKey env) env.now).1 = none)
    (hLinked : is_etf_linked_fund (getFundName env) = true) :
    (get_estimated_nav env c).1 = tiantianEstimate env ∧
    ∀ r, (get_estimated_nav env c).1 = some r →
      r.calculation_method = CalcMethod.tiantian_api := by
  have h1 : (get_estimated_nav env c).1 = tiantianEstimate env := by
    simp only [get_estimated_nav, hMiss, hLinked, if_true]
  exact ⟨h1, fun r hr => tiantianEstimate_method (h1 ▸ hr)⟩

/-- C6, witness: the feeder-fund fixture (holdings, allocation, quotes and
previous NAV all present) still yields the vendor-fallback result. -/
theorem C6_witness :
    (get_estimated_nav envLinked []).1 = tiantianEstimate envLinked ∧
    ∀ r, (get_estimated_nav envLinked []).1 = some r →
      r.calculation_method = CalcMethod.tiantian_api :=
  C6_linked_fund_vendor_only envLinked [] rfl rfl

/-- C10: when the stored previous NAV exists but equals 0.0, the falsiness
check `if not previous_nav` sends a non-linked fund to the vendor fallback
exactly as if the previous NAV were absent: the call returns
`tiantianEstimate`, not a holdings-based result. -/
theorem C10_zero_previous_nav_falls_back (env : Env) (c : Cache EstimationResult)
    (hMiss : (cacheGet c (navCacheKey env) env.now).1 = none)
    (hName : is_etf_linked_fund (getFundName env) = false)
    (hPrev : getPreviousNav env = some 0) :
    (get_estimated_nav env c).1 = tiantianEstimate env := by
  simp only [get_estimated_nav, hMiss, hName, Bool.false_eq_true, if_false, hPrev]
  simp

/-- C10, witness: the fixture whose latest stored NAV is 0.0 (with holdings
and quotes available) produces the vendor-fallback result. -/
theorem C10_witness :
    (get_estimated_nav envZeroPrev []).1 = tiantianEstimate envZeroPrev :=
  C10_zero_previous_nav_falls_back envZeroPrev [] rfl rfl rfl

/-- C8: if every result already stored in the cache satisfies the
method/optional-fields invariant, then any result returned by
`get_estimated_nav` satisfies it: `holdings_based` iff `stock_ratio` and
`holdings_count` are populated, and `tiantian_api` implies both are `None`. -/
theorem C8_method_determines_optional_fields (env : Env) (c : Cache EstimationResult)
    (hc : ∀ p ∈ c, resultInv p.2.value) :
    ∀ r, (get_estimated_nav env c).1 = some r → resultInv r := by
  intro r hr
  have hholds : resultInv (holdingsResult env ((getPreviousNav env).getD 1)) := by
    refine ⟨?_, ?_⟩
    · constructor
      · intro _; exact ⟨rfl, rfl⟩
      · intro _; rfl
    · intro h; cases h
  have htian : ∀ r', tiantianEstimate env = some r' → resultInv r' := by
    intro r' hr'
    have hm := tiantianEstimate_method hr'
    refine ⟨?_, ?_⟩
    · constructor
      · intro h; rw [hm] at h; cases h
      · intro ⟨hs, _⟩
        unfold tiantianEstimate at hr'
        cases hrt : env.realtime with
        | none => rw [hrt] at hr'; cases hr'
        | some rt =>
            rw [hrt] at hr'
            simp only [] at hr'
            cases hr'
            cases hs
    · intro _
      unfold tiantianEstimate at hr'
      cases hrt : env.realtime with
      | none => rw [hrt] at hr'; cases hr'
      | some rt =>
          rw [hrt] at hr'
          simp only [] at hr'
          cases hr'
          exact ⟨rfl, rfl⟩
  revert hr
  simp only [get_estimated_nav]
  cases hHit : (cacheGet c (navCacheKey env) env.now).1 with
  | some cached =>
      simp only []
      intro hr
      cases hr
      obtain ⟨e, hmem, hval⟩ := cacheGet_fst_some hHit
      exact hval ▸ hc _ hmem
  | none =>
      simp only []
      by_cases hL : is_etf_linked_fund (getFundName env)
      · simp only [hL, if_true]
        exact htian r
      · simp only [hL, Bool.false_eq_true, if_false]
        cases hP : getPreviousNav env with
        | none => exact htian r
        | some p =>
            simp only []
            by_cases hp0 : p = 0
            · simp only [hp0, if_true]
              exact htian r
            · simp only [if_neg hp0]
              by_cases hE : env.holdings.isEmpty
              · simp only [hE, if_true]
                exact htian r
              · simp only [hE, Bool.false_eq_true, if_false]
                intro hr
                cases hr
                refine ⟨?_, ?_⟩
                · constructor
                  · intro _; exact ⟨rfl, rfl⟩
                  · intro _; rfl
                · intro h; cases h

/-- C8, witness: with an empty cache (invariant holds vacuously), the
vendor-only fixture's successful result — the vendor-fallback record —
satisfies the invariant. -/
theorem C8_witness :
    resultInv
      { fund_code := "000001", fund_name := "示例基金", current_nav := 2
        estimated_nav := 21/10, change_percent := 5, last_update := 100
        is_trading_hours := true, calculation_method := CalcMethod.tiantian_api
        stock_ratio := none, holdings_count := none } :=
  C8_method_determines_optional_fields envVendorOnly []
    (by intro p hp; cases hp) _ rfl

/-- C5: in the holdings-based path, with non-negative holding percentages
and total quoted weight `w` and raw weighted change `wc`: if `0 < w < 1`
the change is renormalized to `wc / w`; if `w = 0` no division occurs,
`wc` is itself 0, and the estimate is `previous_nav` with zero change
(still a holdings-based result, not a vendor fallback); if `w ≥ 1` the raw
`wc` is used unrenormalized. -/
theorem C5_renormalization (env : Env) (c : Cache EstimationResult) (p : ℚ)
    (hMiss : (cacheGet c (navCacheKey env) env.now).1 = none)
    (hName : is_etf_linked_fund (getFundName env) = false)
    (hPrev : getPreviousNav env = some p) (hp0 : p ≠ 0)
    (hHold : env.holdings.isEmpty = false)
    (hPct : ∀ h ∈ env.holdings, 0 ≤ h.percentage) :
    (get_estimated_nav env c).1 = some (holdingsResult env p) ∧
    (0 < (weightSums env.holdings env.stockPrices).2 ∧
        (weightSums env.holdings env.stockPrices).2 < 1 →
      (holdingsResult env p).change_percent =
        (weightSums env.holdings env.stockPrices).1 /
          (weightSums env.holdings env.stockPrices).2 *
          env.allocStockRatio.getD (95/100) * 100 ∧
      (holdingsResult env p).estimated_nav =
        p * (1 + (weightSums env.holdings env.stockPrices).1 /
          (weightSums env.holdings env.stockPrices).2 *
          env.allocStockRatio.getD (95/100))) ∧
    ((weightSums env.holdings env.stockPrices).2 = 0 →
      (weightSums env.holdings env.stockPrices).1 = 0 ∧
      (holdingsResult env p).estimated_nav = p ∧
      (holdingsResult env p).change_percent = 0) ∧
    (1 ≤ (weightSums env.holdings env.stockPrices).2 →
      (holdingsResult env p).change_percent =
        (weightSums env.holdings env.stockPrices).1 *
          env.allocStockRatio.getD (95/100) * 100 ∧
      (holdingsResult env p).estimated_nav =
        p * (1 + (weightSums env.holdings env.stockPrices).1 *
          env.allocStockRatio.getD (95/100))) := by
  refine ⟨?_, ?_, ?_, ?_⟩
  · simp only [get_estimated_nav, hMiss, hName, Bool.false_eq_true, if_false, hPrev,
      if_neg hp0, hHold]
  · intro hw
    unfold holdingsResult
    simp only [if_pos hw]
    constructor <;> trivial
  · intro hw
    have hwc : (weightSums env.holdings env.stockPrices).1 = 0 :=
      weightFold_fst_of_snd_eq env.holdings env.stockPrices (0, 0) hPct hw
    have hcond : ¬(0 < (weightSums env.holdings env.stockPrices).2 ∧
        (weightSums env.holdings env.stockPrices).2 < 1) := by
      intro hcc
      rw [hw] at hcc
      exact lt_irrefl 0 hcc.1
    unfold holdingsResult
    simp only [if_neg hcond, hwc]
    refine ⟨by trivial, by ring_nf, by ring_nf⟩
  · intro hw
    have hcond : ¬(0 < (weightSums env.holdings env.stockPrices).2 ∧
        (weightSums env.holdings env.stockPrices).2 < 1) := by
      intro hcc
      linarith [hcc.2]
    unfold holdingsResult
    simp only [if_neg hcond]
    constructor <;> trivial

/-- C5, witness: two holdings of 60% and 30%, only the 60% one quoted
(`w = 0.6 ∈ (0,1)`), exercising the renormalization branch. -/
theorem C5_witness :
    (get_estimated_nav envPartial []).1 = some (holdingsResult envPartial 2) ∧
    (0 < (weightSums envPartial.holdings envPartial.stockPrices).2 ∧
        (weightSums envPartial.holdings envPartial.stockPrices).2 < 1 →
      (holdingsResult envPartial 2).change_percent =
        (weightSums envPartial.holdings envPartial.stockPrices).1 /
          (weightSums envPartial.holdings envPartial.stockPrices).2 *
          envPartial.allocStockRatio.getD (95/100) * 100 ∧
      (holdingsResult envPartial 2).estimated_nav =
        2 * (1 + (weightSums envPartial.holdings envPartial.stockPrices).1 /
          (weightSums envPartial.holdings envPartial.stockPrices).2 *
          envPartial.allocStockRatio.getD (95/100))) ∧
    ((weightSums envPartial.holdings envPartial.stockPrices).2 = 0 →
      (weightSums envPartial.holdings envPartial.stockPrices).1 = 0 ∧
      (holdingsResult envPartial 2).estimated_nav = 2 ∧
      (holdingsResult envPartial 2).change_percent = 0) ∧
    (1 ≤ (weightSums envPartial.holdings envPartial.stockPrices).2 →
      (holdingsResult envPartial 2).change_percent =
        (weightSums envPartial.holdings envPartial.stockPrices).1 *
          envPartial.allocStockRatio.getD (95/100) * 100 ∧
      (holdingsResult envPartial 2).estimated_nav =
        2 * (1 + (weightSums envPartial.holdings envPartial.stockPrices).1 *
          envPartial.allocStockRatio.getD (95/100))) :=
  C5_renormalization envPartial [] 2 rfl rfl rfl (by decide) rfl (by decide)

/-- C7: in the vendor-fallback path (a live vendor payload, a database
session and an existing fund row): if a NAV row dated today is stored (and
no row is future-dated), the result has `change_percent = 0` and
`estimated_nav` equal to its own `current_nav`; if no row is dated today,
the result carries the vendor's estimated NAV and estimated growth — for
either value of the trading-hours flag, which is unconstrained here. -/
theorem C7_vendor_fallback_published_nav (env : Env) (rt : Realtime)
    (hDb : env.hasDb = true) (hFund : env.fundExists = true)
    (hRt : env.realtime = some rt) :
    ((∃ rec ∈ env.navRecords, rec.date = env.today) →
     (∀ rec ∈ env.navRecords, rec.date ≤ env.today) →
      ∃ r, tiantianEstimate env = some r ∧ r.change_percent = 0 ∧
        r.estimated_nav = r.current_nav) ∧
    ((∀ rec ∈ env.navRecords, rec.date ≠ env.today) →
      ∃ r, tiantianEstimate env = some r ∧ r.estimated_nav = rt.estimated_nav ∧
        r.change_percent = rt.estimated_growth) := by
  obtain ⟨r, hr, _, _, _, hpub, hnpub⟩ := tiantianEstimate_fields hRt
  constructor
  · intro hEx hLe
    obtain ⟨h1, h2⟩ := hpub (is_today_nav_published_true hDb hFund hEx hLe)
    exact ⟨r, hr, h1, h2⟩
  · intro hNe
    obtain ⟨h1, h2⟩ := hnpub (is_today_nav_published_false hNe)
    exact ⟨r, hr, h1, h2⟩

/-- C7, witness: the fixture with a NAV row dated today returns zero change
and `estimated_nav = current_nav` from the vendor-fallback path. -/
theorem C7_witness :
    ∃ r, tiantianEstimate envPublished = some r ∧ r.change_percent = 0 ∧
      r.estimated_nav = r.current_nav :=
  (C7_vendor_fallback_published_nav envPublished rtFix rfl rfl rfl).1
    (by decide) (by decide)

end NavEstimator

/-! ## Claims about the technical indicator pipeline -/

namespace TechnicalAnalyzer

set_option maxHeartbeats 2000000 in
/-- C1: the claim says a zero rolling average of losses forces RSI = 100.
On the strictly rising series `close = [1, 2]` every bar has zero average
loss, yet the code computes RSI6 = RSI12 = RSI24 = 0 at every bar: the
`replace(0, inf)` lands in the denominator, so `rs = avg_gain / inf = 0`
and `100 − 100/(1+0) = 0` — the opposite of the documented saturation. -/
theorem C1_rsi_zero_loss_evaluates_to_zero :
    (rollingMean 6 (rsiLoss [1, 2]) = [0, 0]) ∧
    ((calculate_rsi ⟨[0, 1], [1, 2], [1, 2], [1, 2], [1, 2], [0, 0], []⟩).getCol "RSI6" =
      [PVal.num 0, PVal.num 0]) ∧
    ((calculate_rsi ⟨[0, 1], [1, 2], [1, 2], [1, 2], [1, 2], [0, 0], []⟩).getCol "RSI12" =
      [PVal.num 0, PVal.num 0]) ∧
    ((calculate_rsi ⟨[0, 1], [1, 2], [1, 2], [1, 2], [1, 2], [0, 0], []⟩).getCol "RSI24" =
      [PVal.num 0, PVal.num 0]) := by
  refine ⟨?_, ?_, ?_, ?_⟩
  · norm_num [rollingMean, rollingApply, rollWindow, listMean, rsiLoss,
      show List.range 2 = [0, 1] from rfl, List.zipWith]
  all_goals
    simp only [calculate_rsi, List.foldl,
      show ("RSI" ++ toString (6:ℕ)) = "RSI6" from rfl,
      show ("RSI" ++ toString (12:ℕ)) = "RSI12" from rfl,
      show ("RSI" ++ toString (24:ℕ)) = "RSI24" from rfl]
  · rw [DF.getCol_setCol_ne _ (by decide), DF.getCol_setCol_ne _ (by decide),
      DF.getCol_setCol]
    norm_num [rsiCol, rsiGain, rsiLoss, rollingMean, rollingApply, rollWindow, listMean,
      show List.range 2 = [0, 1] from rfl, List.zipWith, PVal.div, PVal.add, PVal.sub,
      PVal.neg, pround, qround, rndHalfEven]
  · rw [DF.getCol_setCol_ne _ (by decide), DF.getCol_setCol]
    norm_num [rsiCol, rsiGain, rsiLoss, rollingMean, rollingApply, rollWindow, listMean,
      show List.range 2 = [0, 1] from rfl, List.zipWith, PVal.div, PVal.add, PVal.sub,
      PVal.neg, pround, qround, rndHalfEven]
  · rw [DF.getCol_setCol]
    norm_num [rsiCol, rsiGain, rsiLoss, rollingMean, rollingApply, rollWindow, listMean,
      show List.range 2 = [0, 1] from rfl, List.zipWith, PVal.div, PVal.add, PVal.sub,
      PVal.neg, pround, qround, rndHalfEven]

/-- C3, counterexample: on the single-bar series with every price 1, the
pipeline's `BOLL_UPPER` is `NaN` (sample standard deviation of a single
point, `ddof = 1`), not `close[0] = 1` as the claim states. The value is
`NaN` for every square-root function, the identity taken here. -/
theorem C3_counterexample :
    ((calculate_all (fun q => q) ⟨[0], [1], [1], [1], [1], [0], []⟩).getCol "BOLL_UPPER" =
      [PVal.nan]) ∧
    (calculate_all (fun q => q) ⟨[0], [1], [1], [1], [1], [0], []⟩).getCol "BOLL_UPPER" ≠
      [PVal.num 1] := by
  refine ⟨rfl, ?_⟩
  intro h
  have h2 : [PVal.nan] = [PVal.num 1] := by
    rw [show (calculate_all (fun q => q)
      ⟨[0], [1], [1], [1], [1], [0], []⟩).getCol "BOLL_UPPER" = [PVal.nan] from rfl] at h
    exact h
  cases h2

/-- C3, amended: for every single-bar series and every square-root function,
`MA5` and `BOLL_MID` equal `close[0]` (up to the documented 4-decimal
rounding), `KDJ_K = KDJ_D = 50` when the bar's high, low and close coincide,
but `BOLL_UPPER` and `BOLL_LOWER` are `NaN`, not `close[0]`: the sample
standard deviation of one point is undefined. -/
theorem C3_single_bar_indicators (sqrt : ℚ → ℚ) (o h l c v : ℚ) :
    ((calculate_all sqrt ⟨[0], [o], [h], [l], [c], [v], []⟩).getCol "MA5" =
      [PVal.num (qround 4 c)]) ∧
    ((calculate_all sqrt ⟨[0], [o], [h], [l], [c], [v], []⟩).getCol "BOLL_MID" =
      [PVal.num (qround 4 c)]) ∧
    ((calculate_all sqrt ⟨[0], [o], [h], [l], [c], [v], []⟩).getCol "BOLL_UPPER" =
      [PVal.nan]) ∧
    ((calculate_all sqrt ⟨[0], [o], [h], [l], [c], [v], []⟩).getCol "BOLL_LOWER" =
      [PVal.nan]) ∧
    (h = c → l = c →
      ((calculate_all sqrt ⟨[0], [o], [h], [l], [c], [v], []⟩).getCol "KDJ_K" =
        [PVal.num 50]) ∧
      ((calculate_all sqrt ⟨[0], [o], [h], [l], [c], [v], []⟩).getCol "KDJ_D" =
        [PVal.num 50])) := by
  have hclose : (calculate_rsi (calculate_kdj (calculate_macd (calculate_ma
      ⟨[0], [o], [h], [l], [c], [v], []⟩)))).close = [c] := rfl
  refine ⟨?_, ?_, ?_, ?_, ?_⟩
  · show (calculate_boll sqrt _).getCol "MA5" = _
    simp only [calculate_boll]
    rw [DF.getCol_setCol_ne _ (by decide), DF.getCol_setCol_ne _ (by decide),
      DF.getCol_setCol_ne _ (by decide)]
    simp only [calculate_rsi, List.foldl,
      show ("RSI" ++ toString (6:ℕ)) = "RSI6" from rfl,
      show ("RSI" ++ toString (12:ℕ)) = "RSI12" from rfl,
      show ("RSI" ++ toString (24:ℕ)) = "RSI24" from rfl]
    rw [DF.getCol_setCol_ne _ (by decide), DF.getCol_setCol_ne _ (by decide),
      DF.getCol_setCol_ne _ (by decide)]
    simp only [calculate_kdj]
    rw [DF.getCol_setCol_ne _ (by decide), DF.getCol_setCol_ne _ (by decide),
      DF.getCol_setCol_ne _ (by decide)]
    simp only [calculate_macd]
    rw [DF.getCol_setCol_ne _ (by decide), DF.getCol_setCol_ne _ (by decide),
      DF.getCol_setCol_ne _ (by decide)]
    simp only [calculate_ma, List.foldl,
      show ("MA" ++ toString (5:ℕ)) = "MA5" from rfl,
      show ("MA" ++ toString (10:ℕ)) = "MA10" from rfl,
      show ("MA" ++ toString (20:ℕ)) = "MA20" from rfl,
      show ("MA" ++ toString (60:ℕ)) = "MA60" from rfl]
    rw [DF.getCol_setCol_ne _ (by decide), DF.getCol_setCol_ne _ (by decide),
      DF.getCol_setCol_ne _ (by decide), DF.getCol_setCol]
    simp [rollingMean, rollingApply, rollWindow, listMean, show List.range 1 = [0] from rfl]
  · show (calculate_boll sqrt _).getCol "BOLL_MID" = _
    simp only [calculate_boll]
    rw [DF.getCol_setCol_ne _ (by decide), DF.getCol_setCol_ne _ (by decide),
      DF.getCol_setCol, hclose]
    simp [rollingMean, rollingApply, rollWindow, listMean, show List.range 1 = [0] from rfl]
  · show (calculate_boll sqrt _).getCol "BOLL_UPPER" = _
    simp only [calculate_boll]
    rw [DF.getCol_setCol_ne _ (by decide), DF.getCol_setCol, hclose]
    simp [rollingMean, rollingApply, rollWindow, listMean, rollingStd, sampleVar,
      show List.range 1 = [0] from rfl, PVal.add, PVal.mul, pround]
  · show (calculate_boll sqrt _).getCol "BOLL_LOWER" = _
    simp only [calculate_boll]
    rw [DF.getCol_setCol, hclose]
    simp [rollingMean, rollingApply, rollWindow, listMean, rollingStd, sampleVar,
      show List.range 1 = [0] from rfl, PVal.sub, PVal.neg, PVal.add, PVal.mul, pround]
  · intro hh hl
    rw [hh, hl]
    have hkdj : kdjRsvFilled (calculate_macd (calculate_ma
        ⟨[0], [o], [c], [c], [c], [v], []⟩)) 9 = [PVal.num 50] := by
      have hhi : (calculate_macd (calculate_ma
          ⟨[0], [o], [c], [c], [c], [v], []⟩)).high = [c] := rfl
      have hlo : (calculate_macd (calculate_ma
          ⟨[0], [o], [c], [c], [c], [v], []⟩)).low = [c] := rfl
      have hcl : (calculate_macd (calculate_ma
          ⟨[0], [o], [c], [c], [c], [v], []⟩)).close = [c] := rfl
      simp only [kdjRsvFilled, kdjRsvRaw, hhi, hlo, hcl, rollingMin, rollingMax,
        rollingApply, rollWindow, listMin, listMax, List.length_cons, List.length_nil,
        show List.range 1 = [0] from rfl, List.map_cons, List.map_nil]
      simp [PVal.sub, PVal.neg, PVal.add, PVal.div, PVal.mul]
    constructor
    · show (calculate_boll sqrt _).getCol "KDJ_K" = _
      simp only [calculate_boll]
      rw [DF.getCol_setCol_ne _ (by decide), DF.getCol_setCol_ne _ (by decide),
        DF.getCol_setCol_ne _ (by decide)]
      simp only [calculate_rsi, List.foldl,
        show ("RSI" ++ toString (6:ℕ)) = "RSI6" from rfl,
        show ("RSI" ++ toString (12:ℕ)) = "RSI12" from rfl,
        show ("RSI" ++ toString (24:ℕ)) = "RSI24" from rfl]
      rw [DF.getCol_setCol_ne _ (by decide), DF.getCol_setCol_ne _ (by decide),
        DF.getCol_setCol_ne _ (by decide)]
      simp only [calculate_kdj]
      rw [DF.getCol_setCol_ne _ (by decide), DF.getCol_setCol_ne _ (by decide),
        DF.getCol_setCol, hkdj]
      simp [ewm, ewmGo, pround]
      norm_num [qround, rndHalfEven]
    · show (calculate_boll sqrt _).getCol "KDJ_D" = _
      simp only [calculate_boll]
      rw [DF.getCol_setCol_ne _ (by decide), DF.getCol_setCol_ne _ (by decide),
        DF.getCol_setCol_ne _ (by decide)]
      simp only [calculate_rsi, List.foldl,
        show ("RSI" ++ toString (6:ℕ)) = "RSI6" from rfl,
        show ("RSI" ++ toString (12:ℕ)) = "RSI12" from rfl,
        show ("RSI" ++ toString (24:ℕ)) = "RSI24" from rfl]
      rw [DF.getCol_setCol_ne _ (by decide), DF.getCol_setCol_ne _ (by decide),
        DF.getCol_setCol_ne _ (by decide)]
      simp only [calculate_kdj]
      rw [DF.getCol_setCol_ne _ (by decide), DF.getCol_setCol, hkdj]
      simp [ewm, ewmGo, pround]
      norm_num [qround, rndHalfEven]

/-- C3, witness: the all-ones single bar, with the identity square root,
yields `MA5 = BOLL_MID = [1]` (rounded), `KDJ_K = KDJ_D = [50]`,
and `NaN` Bollinger bands. -/
theorem C3_witness :
    ((calculate_all (fun q => q) ⟨[0], [1], [1], [1], [1], [1], []⟩).getCol "MA5" =
      [PVal.num (qround 4 1)]) ∧
    ((calculate_all (fun q => q) ⟨[0], [1], [1], [1], [1], [1], []⟩).getCol "BOLL_LOWER" =
      [PVal.nan]) ∧
    ((calculate_all (fun q => q) ⟨[0], [1], [1], [1], [1], [1], []⟩).getCol "KDJ_K" =
      [PVal.num 50]) ∧
    ((calculate_all (fun q => q) ⟨[0], [1], [1], [1], [1], [1], []⟩).getCol "KDJ_D" =
      [PVal.num 50]) := by
  obtain ⟨h1, _, _, h4, h5⟩ := C3_single_bar_indicators (fun q => q) 1 1 1 1 1
  obtain ⟨hk, hd⟩ := h5 rfl rfl
  exact ⟨h1, h4, hk, hd⟩

/-- C4, counterexample: a single malformed bar with `high = low = 1` but
`close = 2` (close outside the bar's range) has a zero denominator, yet the
RSV used is `+inf` (numpy `1/0`), not 50 — `fillna(50)` replaces only `NaN`.
So the claim's "for every input series" fails; it holds only for bars whose
close lies inside the window range. -/
theorem C4_counterexample :
    ((rollingMax 9 ([1] : List ℚ)).getD 0 0 = (rollingMin 9 ([1] : List ℚ)).getD 0 0) ∧
    (kdjRsvFilled ⟨[0], [1], [1], [1], [2], [0], []⟩ 9 = [PVal.pinf]) ∧
    PVal.pinf ≠ PVal.num 50 := by
  refine ⟨?_, ?_, by decide⟩
  · norm_num [rollingMax, rollingMin, rollingApply, rollWindow, listMin, listMax,
      show List.range 1 = [0] from rfl]
  · simp only [kdjRsvFilled, kdjRsvRaw, rollingMin, rollingMax, rollingApply, rollWindow,
      listMin, listMax, List.length_cons, List.length_nil,
      show List.range 1 = [0] from rfl, List.map_cons, List.map_nil]
    norm_num [PVal.sub, PVal.neg, PVal.add, PVal.div, PVal.mul]

/-- C4, amended: at every bar where the rolling-window denominator
`max(high, n) − min(low, n)` is zero, the RSV value used is exactly 50,
provided the bar's own close lies between its low and high (true of every
well-formed OHLC bar); a malformed bar with close outside the flat range
yields `±inf` instead (see the counterexample). -/
theorem C4_flat_window_rsv_50 (df : DF) (n i : ℕ) (hn : 0 < n)
    (hi : i < df.close.length)
    (hll : df.low.length = df.close.length) (hhl : df.high.length = df.close.length)
    (hlc : df.low.getD i 0 ≤ df.close.getD i 0)
    (hch : df.close.getD i 0 ≤ df.high.getD i 0)
    (hden : (rollingMax n df.high).getD i 0 = (rollingMin n df.low).getD i 0) :
    (kdjRsvFilled df n).getD i (PVal.num 0) = PVal.num 50 := by
  have hiL : i < df.low.length := by rw [hll]; exact hi
  have hiH : i < df.high.length := by rw [hhl]; exact hi
  have hminEq : (rollingMin n df.low).getD i 0 = listMin (rollWindow n df.low i) := by
    unfold rollingMin rollingApply
    exact getD_range_map _ hiL _
  have hmaxEq : (rollingMax n df.high).getD i 0 = listMax (rollWindow n df.high i) := by
    unfold rollingMax rollingApply
    exact getD_range_map _ hiH _
  have h1 : listMin (rollWindow n df.low i) ≤ df.low.getD i 0 :=
    listMin_le (getD_mem_rollWindow hiL hn)
  have h2 : df.high.getD i 0 ≤ listMax (rollWindow n df.high i) :=
    le_listMax (getD_mem_rollWindow hiH hn)
  have heq : listMax (rollWindow n df.high i) = listMin (rollWindow n df.low i) := by
    rw [← hmaxEq, ← hminEq]; exact hden
  have hc : df.close.getD i 0 = listMin (rollWindow n df.low i) := by
    apply le_antisymm
    · calc df.close.getD i 0 ≤ df.high.getD i 0 := hch
        _ ≤ listMax (rollWindow n df.high i) := h2
        _ = listMin (rollWindow n df.low i) := heq
    · calc listMin (rollWindow n df.low i) ≤ df.low.getD i 0 := h1
        _ ≤ df.close.getD i 0 := hlc
  unfold kdjRsvFilled kdjRsvRaw
  rw [List.map_map, getD_range_map _ hi]
  simp only [Function.comp]
  rw [hminEq, hmaxEq, hc, heq]
  simp [PVal.sub, PVal.neg, PVal.add, PVal.div, PVal.mul]

set_option maxHeartbeats 2000000 in
/-- C4, witness: a flat all-ones bar (close inside the range) has a zero
window denominator and RSV exactly 50. -/
theorem C4_witness :
    (kdjRsvFilled ⟨[0], [1], [1], [1], [1], [0], []⟩ 9).getD 0 (PVal.num 0) =
      PVal.num 50 :=
  C4_flat_window_rsv_50 ⟨[0], [1], [1], [1], [1], [0], []⟩ 9 0
    (by decide) (by decide) rfl rfl (le_refl 1) (le_refl 1)
    (by norm_num [rollingMax, rollingMin, rollingApply, rollWindow, listMin, listMax,
      show List.range 1 = [0] from rfl])

/-- C9: the pipeline never mutates the input series' date or OHLCV fields:
`calculate_all` returns the input bars unchanged (hence in number and
order), touching only the named indicator columns. -/
theorem C9_pipeline_preserves_ohlcv (sqrt : ℚ → ℚ) (df : DF) :
    (calculate_all sqrt df).dates = df.dates ∧
    (calculate_all sqrt df).opens = df.opens ∧
    (calculate_all sqrt df).high = df.high ∧
    (calculate_all sqrt df).low = df.low ∧
    (calculate_all sqrt df).close = df.close ∧
    (calculate_all sqrt df).volume = df.volume := by
  have hb := calculate_all_bars sqrt df
  simp only [DF.bars, Prod.mk.injEq] at hb
  exact ⟨hb.1, hb.2.1, hb.2.2.1, hb.2.2.2.1, hb.2.2.2.2.1, hb.2.2.2.2.2⟩

end TechnicalAnalyzer

end FundCore
